import Mathlib

/-!
Verification of the HoloNet session protocol engine

Shallow embedding of `src/minimal_cli/server.py` and
`src/minimal_cli/proto_phi.py` (the "session protocol engine"): the adaptive
cadence controller, the delta encoder, the bounded outbound queue, the audit
ledger (quaternary MMR), the bearer-token auth gate and the inbound message
dispatcher.  Python floats are modelled as exact rationals, Python dicts as
association lists, and the per-connection mutable session as an explicit state
record threaded through the handlers.  Wall-clock reads, the random draw used
by the phi-rate anomaly filter, and the frame source are passed in as explicit
parameters, since the Python code obtains them from its environment.
-/

namespace Holonet

/-! ## Configuration constants (defaults from server.py lines 70-94) -/

/-- Default of `FRAME_HZ_MIN` (server.py:70). -/
def FRAME_HZ_MIN : ℚ := 1

/-- Default of `FRAME_HZ_MAX` (server.py:71). -/
def FRAME_HZ_MAX : ℚ := 10

/-- Default of `CLIENT_HEARTBEAT_TIMEOUT_SECS` (server.py:72). -/
def CLIENT_HEARTBEAT_TIMEOUT_SECS : ℚ := 20

/-- Default of `DELTA_BATCH_WINDOW_MS` (server.py:82). -/
def DELTA_BATCH_WINDOW_MS : ℚ := 45

/-- Default of `DELTA_BATCH_MAX` (server.py:83). -/
def DELTA_BATCH_MAX : ℕ := 4

/-- Value of `MMR_BUCKET_SIZE` (server.py:93). -/
def MMR_BUCKET_SIZE : ℕ := 16

/-- Value of `ANCHOR_INTERVAL` (server.py:94). -/
def ANCHOR_INTERVAL : ℕ := 64

/-- The `maxsize` of `ClientSession.tx_queue` (server.py:286). -/
def TX_QUEUE_MAXSIZE : ℕ := 256

/-- Value of `PHI_ENGINE.depth` (server.py:249: `UnifiedPhiMatrix(width=120, height=36, depth=32)`). -/
def PHI_ENGINE_depth : ℤ := 32

/-! ## Cadence controller

`frame_interval_seconds` (server.py:251-258), over exact rationals. -/

/-- Embedding of `frame_interval_seconds(phi_rate, latency_ms)` (server.py:251-258):
`hz = FRAME_HZ_MIN + (FRAME_HZ_MAX - FRAME_HZ_MIN) * max(0.0, min(1.0, phi_rate))`;
halve it when `latency_ms > 300`, multiply by `0.7` when `latency_ms > 150`;
clamp into `[FRAME_HZ_MIN, FRAME_HZ_MAX]`; return `1.0 / hz`. -/
def frame_interval_seconds (phi_rate latency_ms : ℚ) : ℚ :=
  let hz0 := FRAME_HZ_MIN + (FRAME_HZ_MAX - FRAME_HZ_MIN) * max 0 (min 1 phi_rate)
  let hz1 := if 300 < latency_ms then hz0 * (1/2)
             else if 150 < latency_ms then hz0 * (7/10)
             else hz0
  let hz2 := max FRAME_HZ_MIN (min FRAME_HZ_MAX hz1)
  1 / hz2

/-! ## Delta encoder

`UnifiedPhiMatrix.calculate_delta` (proto_phi.py:330-366).  A Python matrix is
a dict from cell keys (strings `"x,y"`) to cell dicts `{'g','c','a'}`; we model
keys as naturals and the dict as an association list. -/

/-- One matrix cell, mirroring the `{'g': .., 'c': .., 'a': ..}` dicts built in
`generate_frame` (proto_phi.py:244). -/
structure Cell where
  g : ℕ
  c : ℕ
  a : ℕ
deriving DecidableEq, Repr

/-- A snapshot / delta: key-to-cell mapping (Python dict), as an association list. -/
abbrev Matrix : Type := List (ℕ × Cell)

/-- The keys of a matrix. -/
def matKeys (m : Matrix) : List ℕ := m.map Prod.fst

/-- Embedding of `UnifiedPhiMatrix.calculate_delta(current_matrix, last_matrix)`
(proto_phi.py:330-366).  `if not last_matrix` is Python truthiness: it fires
both when `last_matrix` is `None` and when it is the empty dict, returning
`(current_matrix, False)` (full frame).  Otherwise the changed set is built
from the union of the two key sets: a key is emitted when it is present in
`current_matrix` and its cell differs from `last_matrix.get(key)` (keys absent
from `current_matrix` are skipped, per the explicit `pass` at line 360); the
result is flagged as a delta even when empty (line 366). -/
def calculate_delta (current_matrix : Matrix) (last_matrix : Option Matrix) :
    Matrix × Bool :=
  match last_matrix with
  | none => (current_matrix, false)
  | some lastm =>
    if lastm = ([] : List (ℕ × Cell)) then (current_matrix, false)
    else
      let all_keys := (matKeys current_matrix ++ matKeys lastm).dedup
      let delta : Matrix := all_keys.filterMap (fun k =>
        match current_matrix.lookup k with
        | some c => if lastm.lookup k ≠ some c then some (k, c) else none
        | none => none)
      if delta ≠ ([] : List (ℕ × Cell)) then (delta, true)
      else (([] : List (ℕ × Cell)), true)

example : calculate_delta [(0, ⟨1,2,0⟩)] none = ([(0, ⟨1,2,0⟩)], false) := by decide
example : calculate_delta [(0, ⟨1,2,0⟩)] (some []) = ([(0, ⟨1,2,0⟩)], false) := by decide
example : calculate_delta [(0, ⟨1,2,0⟩)] (some [(0, ⟨1,2,0⟩)]) = ([], true) := by decide
example : calculate_delta [(0, ⟨3,2,0⟩)] (some [(0, ⟨1,2,0⟩)]) = ([(0, ⟨3,2,0⟩)], true) := by decide
example : frame_interval_seconds (1/2) 0 = 2/11 := by
  norm_num [frame_interval_seconds, FRAME_HZ_MIN, FRAME_HZ_MAX]
example : frame_interval_seconds 1 400 = 1/5 := by
  norm_num [frame_interval_seconds, FRAME_HZ_MIN, FRAME_HZ_MAX]

/-! ## Audit ledger: quaternary MMR (server.py:159-223)

The leaf for a full bucket is `sha256(json.dumps(bucket))` (server.py:176); we
keep the bucket itself as the leaf, modelling the hash of the canonical
serialization as an injective stand-in (no claim depends on hash values, only
on the number of leaves and on index ranges).  `_rebuild_mmr` recomputes the
derived internal nodes and peak caches from `leaves` on every append; no claim
observes those derived caches, so the state carries the authoritative `leaves`
sequence and the pending `current_bucket` (the `MMR.current_bucket` attribute
set up by `log_event`, server.py:218-223). -/

/-- State of the process-wide `QuaternaryMMR` plus its pending event bucket. -/
structure MMRState (α : Type) where
  leaves : List (List α)
  current_bucket : List α
deriving Repr

/-- The empty ledger (server.py:161: `self.leaves = []`, with no pending bucket). -/
def MMRState.empty (α : Type) : MMRState α := { leaves := [], current_bucket := [] }

/-- Embedding of `log_event` (server.py:217-223), the ledger's record
operation: append the event to the pending bucket; once the bucket holds
`MMR_BUCKET_SIZE` events, `MMR.append_bucket` hashes it into one new leaf and
the pending bucket is reset. -/
def log_event {α : Type} (st : MMRState α) (e : α) : MMRState α :=
  let bucket := st.current_bucket ++ [e]
  if MMR_BUCKET_SIZE ≤ bucket.length then
    { leaves := st.leaves ++ [bucket], current_bucket := [] }
  else
    { st with current_bucket := bucket }

/-- Embedding of `QuaternaryMMR.get_proof(leaf_idx)` (server.py:202-208):
`raise ValueError("Invalid leaf index")` when `leaf_idx >= len(self.leaves)`
becomes an `Except.error`; otherwise the proof (leaf hash plus the mock
signature derived from it) is returned, modelled by the leaf itself. -/
def get_proof {α : Type} (st : MMRState α) (leaf_idx : ℕ) : Except String (List α) :=
  if st.leaves.length ≤ leaf_idx then Except.error "Invalid leaf index"
  else Except.ok (st.leaves.getD leaf_idx [])

/-- The record operation invoked once per event of `es`, in order. -/
def recordAll {α : Type} (es : List α) (st : MMRState α) : MMRState α :=
  es.foldl log_event st

/-! ## Metrics (server.py:110-156) -/

/-- Process-wide counters of `class Metrics`; `client_latency_ms` is the
bounded recent-latency window (`deque(maxlen=512)`). -/
structure Metrics where
  msg_rx_total : ℕ := 0
  msg_tx_total : ℕ := 0
  heartbeat_total : ℕ := 0
  frames_total : ℕ := 0
  frames_delta_total : ℕ := 0
  frames_full_total : ℕ := 0
  errors_total : ℕ := 0
  auth_fail_total : ℕ := 0
  backpressure_drops_total : ℕ := 0
  client_latency_ms : List ℚ := []
deriving DecidableEq, Repr

/-- Append to a `deque(maxlen=512)` (server.py:131): the oldest entries are
evicted once the window holds 512 samples. -/
def dequeAppend512 (l : List ℚ) (x : ℚ) : List ℚ :=
  let l' := l ++ [x]
  l'.drop (l'.length - 512)

/-! ## Session model and wire messages -/

/-- Per-connection `ClientSession` state (server.py:261-289).  The connection
handle, ip/path/proto strings, task handles and the tx queue itself are
carried by the surrounding infrastructure; `deltaFrames` and `batching` mirror
`feature_flags` (server.py:278-282). -/
structure Session where
  session_id : String := ""
  auth_ok : Bool := false
  observer_id : String := ""
  entity_link : String := "none"
  width : ℤ := 120
  height : ℤ := 36
  z_plane : ℤ := 0
  last_matrix : Option Matrix := none
  last_heartbeat_ts : ℚ := 0
  last_frame_ts : ℚ := 0
  last_phi_rate : ℚ := 1/2
  deltaFrames : Bool := true
  batching : Bool := true
  phi_rate : ℚ := 1/2
  latency_ms : ℚ := 0
  running : Bool := true
deriving DecidableEq, Repr

/-- An outbound frame payload, as assembled by
`UnifiedPhiMatrix.create_enhanced_holoframe` (proto_phi.py:295-328): the
matrix goes into `Layers.MatrixDelta` when `is_delta` and into `Layers.Matrix`
otherwise; the Version/Sequence/Dimensions/Status/Sigil/Quantum metadata does
not take part in any claim and is elided. -/
structure Frame where
  payload : Matrix
  isDelta : Bool
deriving DecidableEq, Repr

/-- Embedding of `create_enhanced_holoframe(session, matrix, ..., is_delta)`. -/
def create_enhanced_holoframe (payload_matrix : Matrix) (is_delta : Bool) : Frame :=
  { payload := payload_matrix, isDelta := is_delta }

/-- Outbound wire messages (spec section 6; built at their enqueue sites in
server.py).  `ackView` is the `ack` reply of the `view` op (server.py:484),
`ackSent` the `ack` reply of `requestFrame` (server.py:491). -/
inductive OutMsg where
  | hello
  | auth_needed
  | pong
  | auth_result (ok : Bool)
  | ackView (w h z : ℤ)
  | ackSent (sent : Bool)
  | statusReply
  | frame (data : Frame)
  | error (reason : String)
deriving DecidableEq, Repr

/-! ## Bounded outbound queue (server.py:286, 292-297)

`ClientSession.tx_queue` is `asyncio.Queue(maxsize=256)`.  `enqueue` runs
`await session.tx_queue.put(payload)` inside `try/except asyncio.QueueFull`.
Per the asyncio API, the coroutine `Queue.put` never raises `QueueFull`: when
the queue is full it suspends the caller until the tx worker frees a slot
(`QueueFull` is raised only by the non-async `put_nowait`).  The `except`
branch that increments `backpressure_drops_total` and logs the drop
(server.py:295-297) is therefore unreachable; the embedding records the
suspension as the `blocked` outcome and faithfully leaves the dead drop
branch with no effect. -/

/-- Outcome of one `enqueue` call. -/
inductive EnqueueOutcome where
  | delivered
  | blocked
deriving DecidableEq, Repr

/-- Embedding of `enqueue(session, payload)` (server.py:292-297) acting on the
metrics and the queue contents: `await tx_queue.put` appends when a slot is
free and suspends the caller otherwise; no exception reaches the caller and
the drop counter is touched only by the unreachable `except` branch. -/
def enqueue (m : Metrics) (q : List OutMsg) (payload : OutMsg) :
    Metrics × List OutMsg × EnqueueOutcome :=
  if q.length < TX_QUEUE_MAXSIZE then
    (m, q ++ [payload], EnqueueOutcome.delivered)
  else
    (m, q, EnqueueOutcome.blocked)

/-! ## Auth gate: `verify_jwt` (server.py:229-240)

The bearer token is a three-part dot-separated string.  The code splits it,
recomputes `hmac.new(AUTH_JWT_SECRET, f"{header_b64}.{payload_b64}", sha256)`
and compares it in constant time against the url-safe-base64-decoded third
part (after re-adding `'='` padding).  The HMAC itself is an external
primitive and is passed in as a function; the splitting and the url-safe
base64 codec are embedded.  `base64.urlsafe_b64decode` is modelled on
well-padded alphabet input (the only input the claims exercise): a chunk with
an out-of-alphabet character or misplaced padding fails, as does a length not
divisible by four, matching the `binascii.Error` the Python call raises there
(caught at server.py:239 and turned into `False`). -/

/-- The url-safe base64 alphabet (RFC 4648: `A-Z a-z 0-9 - _`). -/
def b64Alphabet : List Char :=
  ['A','B','C','D','E','F','G','H','I','J','K','L','M','N','O','P','Q','R','S',
   'T','U','V','W','X','Y','Z','a','b','c','d','e','f','g','h','i','j','k','l',
   'm','n','o','p','q','r','s','t','u','v','w','x','y','z','0','1','2','3','4',
   '5','6','7','8','9','-','_']

/-- Character for a six-bit group. -/
def b64CharOf (n : ℕ) : Char := b64Alphabet.getD n 'A'

/-- Index of an alphabet character, `none` for a character outside it. -/
def b64IndexOf (c : Char) : Option ℕ := b64Alphabet.findIdx? (· = c)

/-- Embedding of `base64.urlsafe_b64encode` on a byte string, three bytes per four output
characters, `'='`-padded. -/
def b64Encode : List ℕ → List Char
  | [] => []
  | [a] => [b64CharOf (a / 4), b64CharOf (a % 4 * 16), '=', '=']
  | [a, b] => [b64CharOf (a / 4), b64CharOf (a % 4 * 16 + b / 16),
               b64CharOf (b % 16 * 4), '=']
  | a :: b :: c :: rest =>
    b64CharOf (a / 4) :: b64CharOf (a % 4 * 16 + b / 16) ::
    b64CharOf (b % 16 * 4 + c / 64) :: b64CharOf (c % 64) :: b64Encode rest

/-- Embedding of `base64.urlsafe_b64decode` on a padded string: four characters per chunk,
padding allowed only at the very end. -/
def b64Decode : List Char → Option (List ℕ)
  | [] => some []
  | [_] => none
  | [_, _] => none
  | [_, _, _] => none
  | c1 :: c2 :: c3 :: c4 :: rest =>
    match b64IndexOf c1, b64IndexOf c2 with
    | some n1, some n2 =>
      if c3 = '=' then
        if c4 = '=' ∧ rest = [] then some [n1 * 4 + n2 / 16] else none
      else if c4 = '=' then
        match b64IndexOf c3 with
        | some n3 =>
          if rest = [] then some [n1 * 4 + n2 / 16, n2 % 16 * 16 + n3 / 4]
          else none
        | none => none
      else
        match b64IndexOf c3, b64IndexOf c4 with
        | some n3, some n4 =>
          match b64Decode rest with
          | some bs =>
            some ((n1 * 4 + n2 / 16) :: (n2 % 16 * 16 + n3 / 4) :: (n3 % 4 * 64 + n4) :: bs)
          | none => none
        | _, _ => none
    | _, _ => none

/-- The padding `'=' * (-len(sig_b64) % 4)` (server.py:236): Python `-n % 4` is the
non-negative remainder. -/
def b64Pad (n : ℕ) : List Char := List.replicate ((4 - n % 4) % 4) '='

/-- Embedding of `token.split(".")`, over character lists. -/
def splitDot : List Char → List (List Char)
  | [] => [[]]
  | c :: rest =>
    if c = '.' then [] :: splitDot rest
    else
      match splitDot rest with
      | [] => [[c]]
      | g :: gs => (c :: g) :: gs

/-- Embedding of `verify_jwt(token)` (server.py:229-240), with the configured
`AUTH_JWT_SECRET` and the HMAC-SHA256 primitive made explicit.  An empty
secret refuses; the tuple-unpacking of `token.split(".")` raises (hence
`False`) unless there are exactly three parts; the decoded third part is
compared byte for byte (`hmac.compare_digest`) against the keyed hash of
`"<part1>.<part2>"`. -/
def verify_jwt (mac : List Char → List Char → List ℕ) (secret : List Char)
    (token : List Char) : Bool :=
  if secret = [] then false
  else
    match splitDot token with
    | [header_b64, payload_b64, sig_b64] =>
      match b64Decode (sig_b64 ++ b64Pad sig_b64.length) with
      | some provided =>
        decide (provided = mac secret (header_b64 ++ '.' :: payload_b64))
      | none => false
    | _ => false

/-- The token of the claim: `"<base64(header)>.<base64(payload)>.<base64(sig)>"`. -/
def mkToken (header payload sig : List ℕ) : List Char :=
  b64Encode header ++ ('.' :: (b64Encode payload ++ ('.' :: b64Encode sig)))

example : b64Encode [77, 97, 110] = ['T','W','F','u'] := by decide
example : b64Encode [77] = ['T','Q','=','='] := by decide
example : b64Decode ['T','Q','=','='] = some [77] := by decide
example : b64Decode ['T','W','F','u'] = some [77, 97, 110] := by decide
example : splitDot ['a','.','b','.','c'] = [['a'],['b'],['c']] := by decide

/-! ## Frame pump: `send_frame_if_due` (server.py:312-375)

The call obtains `now = time.time()`, generates snapshots through
`PHI_ENGINE.generate_frame` and reads the wall clock inside the batching loop.
These environment effects are passed in explicitly: `gen i` is the matrix
produced by the `i`-th `generate_frame` call of this invocation (`gen 0` is
the initial one at server.py:323), and `elapsedMs i` is the value of
`(time.time() - start) * 1000` observed at the window check (server.py:340) of
loop iteration `i`.  The Python helper runs in a worker thread but is awaited
to completion, so the call is a single state transformation.  Messages passed
to `enqueue` are collected in order into `outs`.  The `except` branch at
server.py:372-375 catches failures of the external frame source, which the
pure oracle model cannot produce. -/

/-- A server-side state bundle: the process-wide metrics and ledger plus one
session (claims constrain single-session behaviour). -/
structure ServerState where
  metrics : Metrics
  session : Session
  ledger : MMRState (String × String)
deriving Repr

/-- Result of one `send_frame_if_due` call: the new state, the payloads it
passed to `enqueue` (in order), and its boolean return value. -/
structure SfdResult where
  state : ServerState
  outs : List OutMsg
  sent : Bool
deriving Repr

/-- Python `dict.update`: entries of `delta` are added to `batched`,
overwriting existing keys (server.py:338). -/
def dictUpdate (batched delta : Matrix) : Matrix :=
  (batched : List (ℕ × Cell)).filter (fun p => (List.lookup p.1 delta).isNone) ++ delta

/-- The `for _ in range(DELTA_BATCH_MAX)` micro-batching loop
(server.py:336-350), one constructor argument per piece of loop state:
remaining iterations, the index of the next `generate_frame` call, the
accumulated `batched_delta`, the `changed` flag, the pending `delta_matrix`
computed by the previous iteration (initially the delta of the first
snapshot), and `session.last_matrix`.  Each iteration merges a pending
non-empty delta into the batch, stops once the batching window has elapsed,
then generates the next snapshot, recomputes the delta against
`session.last_matrix` and, when that delta is non-empty, points
`session.last_matrix` at the new snapshot. -/
def deltaBatchLoop (gen : ℕ → Matrix) (elapsedMs : ℕ → ℚ) :
    ℕ → ℕ → Matrix → Bool → Matrix → Option Matrix → Matrix × Bool × Option Matrix
  | 0, _, batched, changed, _, lastm => (batched, changed, lastm)
  | n + 1, i, batched, changed, delta, lastm =>
    let batched' := if delta ≠ ([] : List (ℕ × Cell)) then dictUpdate batched delta else batched
    let changed' := if delta ≠ ([] : List (ℕ × Cell)) then true else changed
    if DELTA_BATCH_WINDOW_MS ≤ elapsedMs i then (batched', changed', lastm)
    else
      let nxt := gen (i + 1)
      let delta' := (calculate_delta nxt lastm).1
      let lastm' := if delta' ≠ ([] : List (ℕ × Cell)) then some nxt else lastm
      deltaBatchLoop gen elapsedMs n (i + 1) batched' changed' delta' lastm'

/-- Embedding of `send_frame_if_due(session)` (server.py:312-375). -/
def send_frame_if_due (gen : ℕ → Matrix) (elapsedMs : ℕ → ℚ) (now : ℚ)
    (st : ServerState) : SfdResult :=
  let s := st.session
  let interval0 := frame_interval_seconds s.phi_rate s.latency_ms
  let interval :=
    if CLIENT_HEARTBEAT_TIMEOUT_SECS < now - s.last_heartbeat_ts
    then max interval0 (3/4) else interval0
  if now - s.last_frame_ts < interval * (8/10) then
    { state := st, outs := [], sent := false }
  else
    let matrix := gen 0
    let delta_matrix := (calculate_delta matrix s.last_matrix).1
    let is_delta := (calculate_delta matrix s.last_matrix).2
    let use_delta := is_delta && s.deltaFrames
    let loopRes :=
      deltaBatchLoop gen elapsedMs DELTA_BATCH_MAX 0
        ([] : List (ℕ × Cell)) false delta_matrix s.last_matrix
    let payload_matrix :=
      if use_delta then (if loopRes.2.1 then loopRes.1 else ([] : List (ℕ × Cell)))
      else matrix
    let lastm1 := if use_delta then loopRes.2.2 else s.last_matrix
    let frame := create_enhanced_holoframe payload_matrix use_delta
    let lastm2 :=
      if !use_delta || !payload_matrix.isEmpty then some matrix else lastm1
    let m := st.metrics
    let m := { m with frames_total := m.frames_total + 1 }
    let m :=
      if use_delta then
        if !payload_matrix.isEmpty then
          { m with frames_delta_total := m.frames_delta_total + 1 }
        else m
      else { m with frames_full_total := m.frames_full_total + 1 }
    { state := { st with
        metrics := m,
        session := { s with last_matrix := lastm2, last_frame_ts := now } },
      outs := [OutMsg.frame frame],
      sent := true }

/-! ## Inbound dispatch: `handle_op` (server.py:423-499) -/

/-- A parsed inbound JSON object: the optional `op` string and the fields the
five known ops read.  `challenge`/`response`/`token` default to the empty
string via `obj.get(key, "")` (server.py:457-459); strings that feed the auth
machinery are lists of characters. -/
structure InObj where
  op : Option String := none
  ts : Option ℚ := none
  phiRate : Option ℚ := none
  challenge : List Char := []
  response : List Char := []
  token : List Char := []
  width : Option ℤ := none
  height : Option ℤ := none
  z : Option ℤ := none

/-- Process configuration: `AUTH_REQUIRED`, `AUTH_SECRET`, `AUTH_JWT_SECRET`
(server.py:75-79) plus the two keyed-hash primitives the auth path applies
(`hmac.new(secret, msg, hashlib.sha256).hexdigest()` and `.digest()`), passed
in as functions since SHA-256 itself is outside the engine. -/
structure Config where
  auth_required : Bool
  auth_secret : List Char
  jwt_secret : List Char
  hmacHex : List Char → List Char → List Char
  hmacBytes : List Char → List Char → List ℕ

/-- Result of one `handle_op` call: the new state and the payloads passed to
`enqueue`, in order. -/
structure OpResult where
  state : ServerState
  outs : List OutMsg

/-- The increment `METRICS.msg_rx_total += 1` (server.py:428). -/
def bump_rx (st : ServerState) : ServerState :=
  { st with metrics :=
      { st.metrics with msg_rx_total := st.metrics.msg_rx_total + 1 } }

/-- The call `await log_event(session_id, event_type, data)` as issued from the op
handlers; the event payload dict is summarized by its type tag. -/
def logEv (st : ServerState) (etype : String) : ServerState :=
  { st with ledger := log_event st.ledger (st.session.session_id, etype) }

/-- Embedding of `handle_op(session, obj)` (server.py:423-499).  `now` is the
value of `time.time()` during the call and `draw` the value of
`random.random()` drawn by the phi-rate anomaly filter (server.py:446);
`gen`/`elapsedMs` feed any nested `send_frame_if_due`.  A missing or empty
`op` is falsy and returns before any effect (server.py:424-426). -/
def handle_op (cfg : Config) (gen : ℕ → Matrix) (elapsedMs : ℕ → ℚ)
    (now draw : ℚ) (st : ServerState) (obj : InObj) : OpResult :=
  match obj.op with
  | none => { state := st, outs := [] }
  | some op =>
    if op = "" then { state := st, outs := [] }
    else
      let st := bump_rx st
      if cfg.auth_required = true ∧ st.session.auth_ok = false ∧ op ≠ "auth" then
        { state := st, outs := [OutMsg.error "unauth_required"] }
      else if op = "heartbeat" then
        let m := { st.metrics with heartbeat_total := st.metrics.heartbeat_total + 1 }
        let s := { st.session with last_heartbeat_ts := now }
        let s :=
          match obj.ts with
          | some client_ts =>
            let client_ts := if (10:ℚ)^10 < client_ts then client_ts / 1000 else client_ts
            { s with latency_ms := max 0 ((now - client_ts) * 1000) }
          | none => s
        let m :=
          match obj.ts with
          | some client_ts =>
            let client_ts := if (10:ℚ)^10 < client_ts then client_ts / 1000 else client_ts
            { m with client_latency_ms :=
                dequeAppend512 m.client_latency_ms (max 0 ((now - client_ts) * 1000)) }
          | none => m
        let s :=
          match obj.phiRate with
          | some phi =>
            let delta_phi := |phi - s.last_phi_rate|
            if 1/10 < delta_phi ∧ draw < 1/20 then
              { s with phi_rate := s.last_phi_rate }
            else
              let p := max 0 (min 1 phi)
              { s with phi_rate := p, last_phi_rate := p }
          | none => s
        { state := logEv { st with metrics := m, session := s } "heartbeat",
          outs := [OutMsg.pong] }
      else if op = "auth" then
        let ok :=
          if obj.token ≠ [] ∧ cfg.jwt_secret ≠ [] then
            verify_jwt cfg.hmacBytes cfg.jwt_secret obj.token
          else if cfg.auth_secret ≠ [] then
            decide (obj.response = cfg.hmacHex cfg.auth_secret obj.challenge)
          else true
        let s := { st.session with auth_ok := ok }
        let m := if ok then st.metrics
                 else { st.metrics with auth_fail_total := st.metrics.auth_fail_total + 1 }
        { state := logEv { st with metrics := m, session := s } "auth",
          outs := [OutMsg.auth_result ok] }
      else if op = "view" then
        let s := st.session
        let w := obj.width.getD s.width
        let h := obj.height.getD s.height
        let z := obj.z.getD s.z_plane
        let s := { s with
          width := max 16 (min 240 w),
          height := max 8 (min 80 h),
          z_plane := max 0 (min (PHI_ENGINE_depth - 1) z) }
        let st := { st with session := s }
        let r := send_frame_if_due gen elapsedMs now st
        { state := logEv r.state "view_change",
          outs := OutMsg.ackView s.width s.height s.z_plane :: r.outs }
      else if op = "requestFrame" then
        let r := send_frame_if_due gen elapsedMs now st
        { state := logEv r.state "frame_request",
          outs := r.outs ++ [OutMsg.ackSent r.sent] }
      else if op = "status" then
        { state := st, outs := [OutMsg.statusReply] }
      else
        { state := st, outs := [OutMsg.error "unknown_operation"] }

/-! # Claim theorems -/

/-! ## C8: no previous snapshot gives a full, non-delta frame -/

/-- C8: for every current snapshot, when the session has no previous snapshot
(`last_matrix` is `None`), `calculate_delta` returns the full current snapshot
and flags the result as a non-delta (full) frame. -/
theorem C8_no_previous_gives_full_frame (current : Matrix) :
    calculate_delta current none = (current, false) := rfl

/-! ## C9: an empty previous snapshot behaves exactly like no previous snapshot -/

/-- C9: for every current snapshot `m`, `calculate_delta m (some {})` with an
empty (zero-cell) previous snapshot behaves exactly as if no previous snapshot
existed: it returns the full snapshot `m` flagged as a non-delta (full) frame,
not a delta of per-cell changes — `if not last_matrix` is Python truthiness,
which fires on the empty dict as well as on `None`. -/
theorem C9_empty_previous_gives_full_frame (current : Matrix) :
    calculate_delta current (some []) = (current, false) ∧
    calculate_delta current (some []) = calculate_delta current none :=
  ⟨rfl, rfl⟩

/-! ## C1: enqueue on a full queue (code bug)

The claim says an enqueue on a full queue is a non-blocking drop that bumps
the drop counter.  The code awaits `asyncio.Queue.put`, which on a full queue
suspends the caller until the tx worker frees a slot and never raises
`QueueFull`; the `except asyncio.QueueFull` drop branch (server.py:295-297)
is unreachable, so no payload is ever dropped there and
`backpressure_drops_total` is never incremented by `enqueue`.  The theorem
evaluates the embedded `enqueue` at the failing input: a session queue that
already holds `TX_QUEUE_MAXSIZE = 256` payloads. -/

/-- A queue filled to its configured capacity. -/
def fullTxQueue : List OutMsg := List.replicate TX_QUEUE_MAXSIZE OutMsg.pong

/-- Metrics with a nonzero drop counter, to make the non-increment visible. -/
def metricsC1 : Metrics := { backpressure_drops_total := 5 }

/-- C1: at the failing input (queue already at capacity 256), the enqueue call
does not return with the payload dropped; it blocks the caller, leaves the
queue unchanged and leaves the backpressure-drop counter unchanged — against
the claimed non-blocking drop that increments the counter once. -/
theorem C1_enqueue_full_queue_blocks :
    enqueue metricsC1 fullTxQueue (OutMsg.error "x")
      = (metricsC1, fullTxQueue, EnqueueOutcome.blocked) ∧
    (enqueue metricsC1 fullTxQueue (OutMsg.error "x")).1.backpressure_drops_total = 5 ∧
    fullTxQueue.length = TX_QUEUE_MAXSIZE := by
  have hlen : fullTxQueue.length = TX_QUEUE_MAXSIZE := List.length_replicate ..
  have hq : ¬ fullTxQueue.length < TX_QUEUE_MAXSIZE := by rw [hlen]; omega
  refine ⟨?_, ?_, ?_⟩
  · rw [enqueue, if_neg hq]
  · rw [enqueue, if_neg hq]; rfl
  · exact hlen

/-! ## C5: bucketized recording and proof index range -/

/-- Leaf and pending-bucket counts after any run of record operations, by
induction over the event list: with a pending bucket below capacity, folding
`log_event` over `es` leaves `(pending + |es|) / 16` new leaves and a pending
bucket of `(pending + |es|) % 16` events. -/
theorem recordAll_counts {α : Type} (es : List α) : ∀ (st : MMRState α),
    st.current_bucket.length < 16 →
    (recordAll es st).leaves.length
      = st.leaves.length + (st.current_bucket.length + es.length) / 16 ∧
    (recordAll es st).current_bucket.length
      = (st.current_bucket.length + es.length) % 16 := by
  induction es with
  | nil =>
    intro st h
    refine ⟨?_, ?_⟩ <;>
      simp only [recordAll, List.foldl_nil, List.length_nil, Nat.add_zero] <;>
      omega
  | cons e es ih =>
    intro st h
    have hstep : recordAll (e :: es) st = recordAll es (log_event st e) := rfl
    by_cases hfull : 16 ≤ st.current_bucket.length + 1
    · have hlog : log_event st e
          = { leaves := st.leaves ++ [st.current_bucket ++ [e]], current_bucket := [] } := by
        simp only [log_event, MMR_BUCKET_SIZE, List.length_append, List.length_singleton]
        rw [if_pos hfull]
      obtain ⟨h1, h2⟩ :=
        ih { leaves := st.leaves ++ [st.current_bucket ++ [e]], current_bucket := [] }
          (by simp)
      simp only [List.length_append, List.length_singleton, List.length_nil] at h1 h2
      rw [hstep, hlog]
      refine ⟨?_, ?_⟩
      · rw [h1]
        simp only [List.length_cons]
        omega
      · rw [h2]
        simp only [List.length_cons]
        omega
    · have hlog : log_event st e = { st with current_bucket := st.current_bucket ++ [e] } := by
        simp only [log_event, MMR_BUCKET_SIZE, List.length_append, List.length_singleton]
        rw [if_neg hfull]
      obtain ⟨h1, h2⟩ :=
        ih { st with current_bucket := st.current_bucket ++ [e] }
          (by simp only [List.length_append, List.length_singleton]; omega)
      simp only [List.length_append, List.length_singleton] at h1 h2
      rw [hstep, hlog]
      refine ⟨?_, ?_⟩
      · rw [h1]
        simp only [List.length_cons]
        omega
      · rw [h2]
        simp only [List.length_cons]
        omega

/-- C5: invoking the record operation (`log_event`) exactly `B × 16` times on
an initially empty ledger yields exactly `B` leaves; a proof request for leaf
index `B - 1` succeeds, a proof request for leaf index `B` fails with the
out-of-range `ValueError`, reported to the caller as a value rather than a
crash. -/
theorem C5_record_bucket_count_and_proof_range {α : Type} (B : ℕ) (es : List α)
    (hB : 1 ≤ B) (hlen : es.length = B * MMR_BUCKET_SIZE) :
    (recordAll es (MMRState.empty α)).leaves.length = B ∧
    (∃ pr, get_proof (recordAll es (MMRState.empty α)) (B - 1) = Except.ok pr) ∧
    get_proof (recordAll es (MMRState.empty α)) B = Except.error "Invalid leaf index" := by
  obtain ⟨h1, -⟩ := recordAll_counts es (MMRState.empty α)
    (by simp [MMRState.empty])
  have hleaves : (recordAll es (MMRState.empty α)).leaves.length = B := by
    rw [h1, hlen]
    simp only [MMRState.empty, List.length_nil, MMR_BUCKET_SIZE, Nat.zero_add]
    omega
  refine ⟨hleaves, ?_, ?_⟩
  · refine ⟨(recordAll es (MMRState.empty α)).leaves.getD (B - 1) [], ?_⟩
    rw [get_proof, if_neg (by omega : ¬ (recordAll es (MMRState.empty α)).leaves.length ≤ B - 1)]
  · rw [get_proof, if_pos (by omega : (recordAll es (MMRState.empty α)).leaves.length ≤ B)]

/-! ## C3: cadence interval monotonicity and bounds -/

/-- The pre-latency target rate of `frame_interval_seconds` (server.py:252). -/
def baseHz (r : ℚ) : ℚ := FRAME_HZ_MIN + (FRAME_HZ_MAX - FRAME_HZ_MIN) * max 0 (min 1 r)

/-- The latency multiplier of `frame_interval_seconds` (server.py:253-256). -/
def latFactor (l : ℚ) : ℚ := if 300 < l then 1/2 else if 150 < l then 7/10 else 1

/-- The final clamp of `frame_interval_seconds` (server.py:257). -/
def clampHz (x : ℚ) : ℚ := max FRAME_HZ_MIN (min FRAME_HZ_MAX x)

theorem frame_interval_factored (r l : ℚ) :
    frame_interval_seconds r l = 1 / clampHz (baseHz r * latFactor l) := by
  unfold frame_interval_seconds baseHz latFactor clampHz
  split_ifs <;> ring_nf

theorem baseHz_mono {r1 r2 : ℚ} (h : r1 ≤ r2) : baseHz r1 ≤ baseHz r2 := by
  unfold baseHz
  have : max 0 (min 1 r1) ≤ max 0 (min 1 r2) :=
    max_le_max le_rfl (min_le_min le_rfl h)
  have h9 : (0:ℚ) ≤ FRAME_HZ_MAX - FRAME_HZ_MIN := by norm_num [FRAME_HZ_MIN, FRAME_HZ_MAX]
  nlinarith

theorem baseHz_nonneg (r : ℚ) : 0 ≤ baseHz r := by
  unfold baseHz FRAME_HZ_MIN FRAME_HZ_MAX
  have h1 : (0:ℚ) ≤ max 0 (min 1 r) := le_max_left 0 _
  nlinarith

theorem latFactor_nonneg (l : ℚ) : 0 ≤ latFactor l := by
  unfold latFactor; split_ifs <;> norm_num

theorem latFactor_anti {l1 l2 : ℚ} (h : l1 ≤ l2) : latFactor l2 ≤ latFactor l1 := by
  unfold latFactor
  split_ifs <;> linarith

theorem clampHz_mono {x y : ℚ} (h : x ≤ y) : clampHz x ≤ clampHz y :=
  max_le_max le_rfl (min_le_min le_rfl h)

theorem clampHz_bounds (x : ℚ) : FRAME_HZ_MIN ≤ clampHz x ∧ clampHz x ≤ FRAME_HZ_MAX := by
  constructor
  · exact le_max_left _ _
  · exact max_le (by norm_num [FRAME_HZ_MIN, FRAME_HZ_MAX]) (min_le_left _ _)

theorem clampHz_pos (x : ℚ) : 0 < clampHz x :=
  lt_of_lt_of_le (by norm_num [FRAME_HZ_MIN]) (clampHz_bounds x).1

/-- C3: the computed frame interval is non-increasing in responsiveness
(`r1 ≤ r2` gives `interval r2 l ≤ interval r1 l`), non-decreasing in latency
(`l1 ≤ l2` gives `interval r l1 ≤ interval r l2`), and always lies within
`[1/FRAME_HZ_MAX, 1/FRAME_HZ_MIN]`; it is a pure, deterministic function of
exactly the two inputs `phi_rate` and `latency_ms`. -/
theorem C3_interval_monotone_and_bounded (r r1 r2 l l1 l2 : ℚ)
    (hr0 : 0 ≤ r) (hr1 : r ≤ 1) (hr10 : 0 ≤ r1) (hr11 : r1 ≤ 1)
    (hr20 : 0 ≤ r2) (hr21 : r2 ≤ 1) (hl : 0 ≤ l) (hl1 : 0 ≤ l1) (hl2 : 0 ≤ l2)
    (hr : r1 ≤ r2) (hll : l1 ≤ l2) :
    frame_interval_seconds r2 l ≤ frame_interval_seconds r1 l ∧
    frame_interval_seconds r l1 ≤ frame_interval_seconds r l2 ∧
    1 / FRAME_HZ_MAX ≤ frame_interval_seconds r l ∧
    frame_interval_seconds r l ≤ 1 / FRAME_HZ_MIN := by
  refine ⟨?_, ?_, ?_, ?_⟩
  · rw [frame_interval_factored, frame_interval_factored]
    exact one_div_le_one_div_of_le (clampHz_pos _)
      (clampHz_mono (mul_le_mul_of_nonneg_right (baseHz_mono hr) (latFactor_nonneg l)))
  · rw [frame_interval_factored, frame_interval_factored]
    exact one_div_le_one_div_of_le (clampHz_pos _)
      (clampHz_mono (mul_le_mul_of_nonneg_left (latFactor_anti hll) (baseHz_nonneg r)))
  · rw [frame_interval_factored]
    exact one_div_le_one_div_of_le (clampHz_pos _) (clampHz_bounds _).2
  · rw [frame_interval_factored]
    have hmin : (0:ℚ) < FRAME_HZ_MIN := by norm_num [FRAME_HZ_MIN]
    exact one_div_le_one_div_of_le hmin (clampHz_bounds _).1

/-- Witness for C3 at `r = 1/2, r1 = 1/4, r2 = 3/4, l = 100, l1 = 100, l2 = 200`. -/
theorem C3_witness :
    ((0:ℚ) ≤ 1/2 ∧ (1/2:ℚ) ≤ 1 ∧ (0:ℚ) ≤ 1/4 ∧ (1/4:ℚ) ≤ 1 ∧ (0:ℚ) ≤ 3/4 ∧
     (3/4:ℚ) ≤ 1 ∧ (0:ℚ) ≤ 100 ∧ (0:ℚ) ≤ 100 ∧ (0:ℚ) ≤ 200 ∧ (1/4:ℚ) ≤ 3/4 ∧
     (100:ℚ) ≤ 200) ∧
    (frame_interval_seconds (3/4) 100 ≤ frame_interval_seconds (1/4) 100 ∧
     frame_interval_seconds (1/2) 100 ≤ frame_interval_seconds (1/2) 200 ∧
     1 / FRAME_HZ_MAX ≤ frame_interval_seconds (1/2) 100 ∧
     frame_interval_seconds (1/2) 100 ≤ 1 / FRAME_HZ_MIN) :=
  ⟨by norm_num,
   C3_interval_monotone_and_bounded (1/2) (1/4) (3/4) 100 100 200
     (by norm_num) (by norm_num) (by norm_num) (by norm_num) (by norm_num)
     (by norm_num) (by norm_num) (by norm_num) (by norm_num) (by norm_num)
     (by norm_num)⟩

/-- Witness for C5 at `B = 1` with sixteen concrete events. -/
theorem C5_witness :
    (1 ≤ 1 ∧ (List.replicate 16 (0 : ℕ)).length = 1 * MMR_BUCKET_SIZE) ∧
    ((recordAll (List.replicate 16 (0 : ℕ)) (MMRState.empty ℕ)).leaves.length = 1 ∧
     (∃ pr, get_proof (recordAll (List.replicate 16 (0 : ℕ)) (MMRState.empty ℕ)) 0
        = Except.ok pr) ∧
     get_proof (recordAll (List.replicate 16 (0 : ℕ)) (MMRState.empty ℕ)) 1
        = Except.error "Invalid leaf index") :=
  ⟨⟨le_rfl, by decide⟩,
   C5_record_bucket_count_and_proof_range 1 (List.replicate 16 (0 : ℕ)) le_rfl (by decide)⟩

/-! ## C6: bearer-token acceptance

Helper lemmas: the url-safe base64 codec round-trips on byte strings, encoded
output contains no `'.'` and has length divisible by four, and `split(".")`
recovers the three parts of a well-formed token. -/

theorem b64IndexOf_charOf_fin : ∀ n : Fin 64, b64IndexOf (b64CharOf n.val) = some n.val := by
  decide

theorem b64IndexOf_charOf {n : ℕ} (h : n < 64) : b64IndexOf (b64CharOf n) = some n :=
  b64IndexOf_charOf_fin ⟨n, h⟩

theorem b64CharOf_ne_pad_fin : ∀ n : Fin 64, b64CharOf n.val ≠ '=' := by decide

theorem b64CharOf_ne_dot_fin : ∀ n : Fin 64, b64CharOf n.val ≠ '.' := by decide

theorem b64Alphabet_length : b64Alphabet.length = 64 := by decide

theorem b64CharOf_ne_pad (n : ℕ) : b64CharOf n ≠ '=' := by
  rcases lt_or_ge n 64 with h | h
  · exact b64CharOf_ne_pad_fin ⟨n, h⟩
  · unfold b64CharOf
    rw [List.getD_eq_default _ _ (by rw [b64Alphabet_length]; omega)]
    decide

theorem b64CharOf_ne_dot (n : ℕ) : b64CharOf n ≠ '.' := by
  rcases lt_or_ge n 64 with h | h
  · exact b64CharOf_ne_dot_fin ⟨n, h⟩
  · unfold b64CharOf
    rw [List.getD_eq_default _ _ (by rw [b64Alphabet_length]; omega)]
    decide

theorem b64Encode_no_dot : ∀ bs : List ℕ, '.' ∉ b64Encode bs
  | [] => by simp [b64Encode]
  | [a] => by
    simp only [b64Encode, List.mem_cons, List.not_mem_nil, or_false]
    push_neg
    refine ⟨fun h => b64CharOf_ne_dot _ h.symm, fun h => b64CharOf_ne_dot _ h.symm, ?_, ?_⟩ <;>
      decide
  | [a, b] => by
    simp only [b64Encode, List.mem_cons, List.not_mem_nil, or_false]
    push_neg
    refine ⟨fun h => b64CharOf_ne_dot _ h.symm, fun h => b64CharOf_ne_dot _ h.symm,
      fun h => b64CharOf_ne_dot _ h.symm, ?_⟩
    decide
  | a :: b :: c :: rest => by
    have ih := b64Encode_no_dot rest
    simp only [b64Encode, List.mem_cons]
    push_neg
    exact ⟨fun h => b64CharOf_ne_dot _ h.symm, fun h => b64CharOf_ne_dot _ h.symm,
      fun h => b64CharOf_ne_dot _ h.symm, fun h => b64CharOf_ne_dot _ h.symm, ih⟩

theorem b64Encode_length_mod4 : ∀ bs : List ℕ, (b64Encode bs).length % 4 = 0
  | [] => rfl
  | [_] => by simp [b64Encode]
  | [_, _] => by simp [b64Encode]
  | a :: b :: c :: rest => by
    have ih := b64Encode_length_mod4 rest
    simp only [b64Encode, List.length_cons]
    omega

theorem b64Decode_b64Encode : ∀ bs : List ℕ, (∀ x ∈ bs, x < 256) →
    b64Decode (b64Encode bs) = some bs
  | [], _ => rfl
  | [a], h => by
    have ha : a < 256 := h a (by simp)
    have h1 : a / 4 < 64 := by omega
    have h2 : a % 4 * 16 < 64 := by omega
    simp only [b64Encode, b64Decode, b64IndexOf_charOf h1, b64IndexOf_charOf h2]
    norm_num
    omega
  | [a, b], h => by
    have ha : a < 256 := h a (by simp)
    have hb : b < 256 := h b (by simp)
    have h1 : a / 4 < 64 := by omega
    have h2 : a % 4 * 16 + b / 16 < 64 := by omega
    have h3 : b % 16 * 4 < 64 := by omega
    simp only [b64Encode, b64Decode, b64IndexOf_charOf h1, b64IndexOf_charOf h2,
      b64IndexOf_charOf h3, if_neg (b64CharOf_ne_pad (b % 16 * 4))]
    norm_num
    omega
  | a :: b :: c :: rest, h => by
    have ha : a < 256 := h a (by simp)
    have hb : b < 256 := h b (by simp)
    have hc : c < 256 := h c (by simp)
    have ih := b64Decode_b64Encode rest (fun x hx => h x (by simp [hx]))
    have h1 : a / 4 < 64 := by omega
    have h2 : a % 4 * 16 + b / 16 < 64 := by omega
    have h3 : b % 16 * 4 + c / 64 < 64 := by omega
    have h4 : c % 64 < 64 := by omega
    simp only [b64Encode, b64Decode, b64IndexOf_charOf h1, b64IndexOf_charOf h2,
      b64IndexOf_charOf h3, b64IndexOf_charOf h4,
      if_neg (b64CharOf_ne_pad (b % 16 * 4 + c / 64)),
      if_neg (b64CharOf_ne_pad (c % 64)), ih]
    norm_num
    omega

theorem splitDot_ne_nil : ∀ l : List Char, splitDot l ≠ []
  | [] => by simp [splitDot]
  | c :: rest => by
    simp only [splitDot]
    split
    · simp
    · cases h : splitDot rest <;> simp

theorem splitDot_no_dot (a : List Char) (h : '.' ∉ a) : splitDot a = [a] := by
  induction a with
  | nil => rfl
  | cons c rest ih =>
    have hc : ¬ c = '.' := fun e => h (e ▸ List.mem_cons_self c rest)
    have hrest : '.' ∉ rest := fun m => h (List.mem_cons_of_mem _ m)
    simp only [splitDot, if_neg hc, ih hrest]

theorem splitDot_append (a t : List Char) (h : '.' ∉ a) :
    splitDot (a ++ '.' :: t) = a :: splitDot t := by
  induction a with
  | nil => simp [splitDot]
  | cons c rest ih =>
    have hc : ¬ c = '.' := fun e => h (e ▸ List.mem_cons_self c rest)
    have hrest : '.' ∉ rest := fun m => h (List.mem_cons_of_mem _ m)
    simp only [List.cons_append, splitDot, if_neg hc, List.append_eq, ih hrest]

/-- C6: for every header, payload and signature byte string and every
configured (non-empty) bearer-token secret, the auth gate accepts the
three-part token `"<base64(header)>.<base64(payload)>.<base64(sig)>"` if and
only if `sig` equals, byte for byte, the keyed hash (HMAC-SHA256 under the
configured secret) of the dot-joined first two token parts — the signing
input `f"{header_b64}.{payload_b64}"` of server.py:234. -/
theorem C6_jwt_accept_iff_sig_matches
    (mac : List Char → List Char → List ℕ) (secret : List Char)
    (header payload sig : List ℕ)
    (hsecret : secret ≠ []) (hsig : ∀ x ∈ sig, x < 256) :
    verify_jwt mac secret (mkToken header payload sig) = true ↔
      sig = mac secret (b64Encode header ++ '.' :: b64Encode payload) := by
  have hsplit : splitDot (mkToken header payload sig)
      = [b64Encode header, b64Encode payload, b64Encode sig] := by
    rw [mkToken, splitDot_append _ _ (b64Encode_no_dot header),
      splitDot_append _ _ (b64Encode_no_dot payload),
      splitDot_no_dot _ (b64Encode_no_dot sig)]
  have hpad : b64Pad (b64Encode sig).length = [] := by
    have := b64Encode_length_mod4 sig
    unfold b64Pad
    rw [this]
    rfl
  rw [verify_jwt, if_neg hsecret, hsplit]
  simp only [hpad, List.append_nil, b64Decode_b64Encode sig hsig]
  exact decide_eq_true_iff

/-- Witness for C6: secret `"k"`, header `[1]`, payload `[2]`, signature `[7]`,
and an HMAC stand-in that returns `[7]`, so the token is accepted. -/
theorem C6_witness :
    ((['k'] : List Char) ≠ [] ∧ ∀ x ∈ [7], x < 256) ∧
    (verify_jwt (fun _ _ => [7]) ['k'] (mkToken [1] [2] [7]) = true ↔
      [7] = (fun (_ : List Char) (_ : List Char) => [7]) ['k']
        (b64Encode [1] ++ '.' :: b64Encode [2])) :=
  ⟨⟨by decide, by decide⟩,
   C6_jwt_accept_iff_sig_matches (fun _ _ => [7]) ['k'] [1] [2] [7]
     (by decide) (by decide)⟩

/-! ## C2: requestFrame forces an immediate attempt and acks truthfully -/

/-- Every `send_frame_if_due` call either sends nothing and returns `False`
(the cadence gate at server.py:319), or enqueues exactly one frame and returns
`True`. -/
theorem send_frame_if_due_cases (gen : ℕ → Matrix) (elapsedMs : ℕ → ℚ) (now : ℚ)
    (st : ServerState) :
    ((send_frame_if_due gen elapsedMs now st).sent = false ∧
     (send_frame_if_due gen elapsedMs now st).outs = []) ∨
    ((send_frame_if_due gen elapsedMs now st).sent = true ∧
     ∃ fr, (send_frame_if_due gen elapsedMs now st).outs = [OutMsg.frame fr]) := by
  simp only [send_frame_if_due]
  split <;> split <;>
    first
      | exact Or.inl ⟨rfl, rfl⟩
      | exact Or.inr ⟨rfl, _, rfl⟩

/-- C2: for every session state and every wall-clock instant — in particular
for every value of `now - last_frame_ts`, so regardless of cadence timing —
handling a `requestFrame` message invokes the frame-send attempt
(`send_frame_if_due`) at that same instant and replies with an `ack` whose
`sent` field is the attempt's result, which is `true` exactly when a frame was
actually enqueued in the reply stream. -/
theorem C2_requestFrame_attempt_and_truthful_ack
    (cfg : Config) (gen : ℕ → Matrix) (elapsedMs : ℕ → ℚ) (now draw : ℚ)
    (st : ServerState) (obj : InObj)
    (hop : obj.op = some "requestFrame")
    (hauth : cfg.auth_required = false ∨ st.session.auth_ok = true) :
    (handle_op cfg gen elapsedMs now draw st obj).outs
      = (send_frame_if_due gen elapsedMs now (bump_rx st)).outs
        ++ [OutMsg.ackSent (send_frame_if_due gen elapsedMs now (bump_rx st)).sent] ∧
    ((send_frame_if_due gen elapsedMs now (bump_rx st)).sent = true ↔
      ∃ fr, OutMsg.frame fr ∈ (handle_op cfg gen elapsedMs now draw st obj).outs) := by
  have hgate : ¬ (cfg.auth_required = true ∧ (bump_rx st).session.auth_ok = false ∧
      ("requestFrame" : String) ≠ "auth") := by
    rcases hauth with h | h
    · intro hcon
      rw [h] at hcon
      exact absurd hcon.1 (by simp)
    · intro hcon
      have hok : (bump_rx st).session.auth_ok = true := h
      rw [hok] at hcon
      exact absurd hcon.2.1 (by simp)
  have houts : (handle_op cfg gen elapsedMs now draw st obj).outs
      = (send_frame_if_due gen elapsedMs now (bump_rx st)).outs
        ++ [OutMsg.ackSent (send_frame_if_due gen elapsedMs now (bump_rx st)).sent] := by
    simp only [handle_op, hop]
    rw [if_neg (by decide : ¬ ("requestFrame" : String) = "")]
    rw [if_neg hgate]
    rw [if_neg (by decide : ¬ ("requestFrame" : String) = "heartbeat")]
    rw [if_neg (by decide : ¬ ("requestFrame" : String) = "auth")]
    rw [if_neg (by decide : ¬ ("requestFrame" : String) = "view")]
    simp
  refine ⟨houts, ?_⟩
  rcases send_frame_if_due_cases gen elapsedMs now (bump_rx st) with ⟨hs, ho⟩ | ⟨hs, fr, ho⟩
  · rw [houts, hs, ho]
    simp
  · rw [houts, hs, ho]
    simp

/-- Shared concrete instances for witnesses: an open-auth configuration with
inert hash primitives, a fresh default session, a constant frame source and a
zero-elapsed clock. -/
def cfgOpen : Config :=
  { auth_required := false, auth_secret := [], jwt_secret := [],
    hmacHex := fun _ _ => [], hmacBytes := fun _ _ => [] }

def st0 : ServerState :=
  { metrics := {}, session := { session_id := "s" }, ledger := MMRState.empty _ }

def gen0 : ℕ → Matrix := fun _ => []

def elapsed0 : ℕ → ℚ := fun _ => 0

/-- Witness for C2 on the fresh session at `now = 100`. -/
theorem C2_witness :
    (({ op := some "requestFrame" } : InObj).op = some "requestFrame" ∧
     (cfgOpen.auth_required = false ∨ st0.session.auth_ok = true)) ∧
    ((handle_op cfgOpen gen0 elapsed0 100 0 st0 { op := some "requestFrame" }).outs
        = (send_frame_if_due gen0 elapsed0 100 (bump_rx st0)).outs
          ++ [OutMsg.ackSent (send_frame_if_due gen0 elapsed0 100 (bump_rx st0)).sent] ∧
     ((send_frame_if_due gen0 elapsed0 100 (bump_rx st0)).sent = true ↔
       ∃ fr, OutMsg.frame fr ∈
         (handle_op cfgOpen gen0 elapsed0 100 0 st0 { op := some "requestFrame" }).outs)) :=
  ⟨⟨rfl, Or.inl rfl⟩,
   C2_requestFrame_attempt_and_truthful_ack cfgOpen gen0 elapsed0 100 0 st0
     { op := some "requestFrame" } rfl (Or.inl rfl)⟩

/-! ## C10: messages without an op are silently ignored -/

/-- C10: an inbound well-formed JSON object lacking an `op` field (or with an
empty `op`) is silently ignored: `obj.get("op")` is falsy, so `handle_op`
returns before sending any reply, before `msg_rx_total` is incremented, and
before any session, metrics or ledger state is touched. -/
theorem C10_missing_or_empty_op_ignored
    (cfg : Config) (gen : ℕ → Matrix) (elapsedMs : ℕ → ℚ) (now draw : ℚ)
    (st : ServerState) (obj : InObj)
    (hop : obj.op = none ∨ obj.op = some "") :
    handle_op cfg gen elapsedMs now draw st obj = { state := st, outs := [] } := by
  rcases hop with h | h
  · simp only [handle_op, h]
  · simp only [handle_op, h]
    simp

/-- Witness for C10 on a fresh session and an op-less message. -/
theorem C10_witness :
    (({} : InObj).op = none ∨ ({} : InObj).op = some "") ∧
    handle_op cfgOpen gen0 elapsed0 100 0 st0 {} = { state := st0, outs := [] } :=
  ⟨Or.inl rfl,
   C10_missing_or_empty_op_ignored cfgOpen gen0 elapsed0 100 0 st0 {} (Or.inl rfl)⟩

/-! ## C7: heartbeat latency, pong, and the probabilistic phi-rate filter

The claim says a `heartbeat{ts: now_ms - 500, phiRate: 0.9}` always makes the
session's responsiveness 0.9.  The code first runs the anomaly filter
(server.py:445-451): when the reported value differs from the last accepted
one by more than 0.1 AND `random.random() < 0.05`, the update is rejected and
the responsiveness keeps its previous value.  On a fresh session
(`last_phi_rate = 0.5`) the jump to 0.9 exceeds 0.1, so a draw below 0.05
refutes the claim; latency (≈500 ms) and the `pong` reply hold regardless. -/

/-- Counterexample to C7 as stated: fresh session, `now = 10^8`, random draw
`0.01 < 0.05`; the heartbeat with `phiRate: 0.9` leaves responsiveness at the
previous value 0.5, not 0.9. -/
theorem C7_counterexample :
    (handle_op cfgOpen gen0 elapsed0 (10^8) (1/100) st0
      { op := some "heartbeat", ts := some (10^8 * 1000 - 500),
        phiRate := some (9/10) }).state.session.phi_rate = 1/2 ∧
    (handle_op cfgOpen gen0 elapsed0 (10^8) (1/100) st0
      { op := some "heartbeat", ts := some (10^8 * 1000 - 500),
        phiRate := some (9/10) }).state.session.phi_rate ≠ 9/10 := by
  have habs : |(9/10 : ℚ) - 1/2| = 2/5 := by
    rw [abs_of_nonneg] <;> norm_num
  have habs2 : |(2/5 : ℚ)| = 2/5 := abs_of_nonneg (by norm_num)
  have hres : (handle_op cfgOpen gen0 elapsed0 (10^8) (1/100) st0
      { op := some "heartbeat", ts := some (10^8 * 1000 - 500),
        phiRate := some (9/10) }).state.session.phi_rate = 1/2 := by
    simp only [handle_op]
    rw [if_neg (by decide : ¬ ("heartbeat" : String) = "")]
    norm_num [cfgOpen, st0, logEv, bump_rx, dequeAppend512, habs, habs2]
  exact ⟨hres, by rw [hres]; norm_num⟩

/-- C7 amended: handling `heartbeat{ts: now*1000 - 500, phiRate: phi}` sets
the measured latency to exactly 500 ms (the millisecond-epoch timestamp is
auto-detected by magnitude), replies `pong`, and sets the responsiveness to
the reported value clamped into `[0,1]` — unless the probabilistic anomaly
filter fires (jump above 0.1 and random draw below 0.05), in which case the
responsiveness keeps its previous value. -/
theorem C7_heartbeat_amended
    (cfg : Config) (gen : ℕ → Matrix) (elapsedMs : ℕ → ℚ) (now draw phi : ℚ)
    (st : ServerState)
    (hauth : cfg.auth_required = false ∨ st.session.auth_ok = true)
    (hnow : (10:ℚ)^8 ≤ now) :
    (handle_op cfg gen elapsedMs now draw st
      { op := some "heartbeat", ts := some (now * 1000 - 500),
        phiRate := some phi }).state.session.latency_ms = 500 ∧
    (handle_op cfg gen elapsedMs now draw st
      { op := some "heartbeat", ts := some (now * 1000 - 500),
        phiRate := some phi }).outs = [OutMsg.pong] ∧
    (handle_op cfg gen elapsedMs now draw st
      { op := some "heartbeat", ts := some (now * 1000 - 500),
        phiRate := some phi }).state.session.phi_rate =
      (if 1/10 < |phi - st.session.last_phi_rate| ∧ draw < 1/20
       then st.session.last_phi_rate
       else max 0 (min 1 phi)) := by
  have hgate : ¬ (cfg.auth_required = true ∧ (bump_rx st).session.auth_ok = false ∧
      ("heartbeat" : String) ≠ "auth") := by
    rcases hauth with h | h
    · intro hcon
      rw [h] at hcon
      exact absurd hcon.1 (by simp)
    · intro hcon
      have hok : (bump_rx st).session.auth_ok = true := h
      rw [hok] at hcon
      exact absurd hcon.2.1 (by simp)
  have hts : (10:ℚ)^10 < now * 1000 - 500 := by
    norm_num at hnow ⊢
    linarith
  have hdiv : (now * 1000 - 500) / 1000 = now - 1/2 := by ring
  have hlat : max 0 ((now - (now * 1000 - 500) / 1000) * 1000) = 500 := by
    rw [hdiv]
    norm_num
  simp only [handle_op]
  rw [if_neg (by decide : ¬ ("heartbeat" : String) = "")]
  rw [if_neg hgate]
  simp only [if_true, logEv, bump_rx, if_pos hts, hlat]
  refine ⟨?_, ?_, ?_⟩
  · first | trivial | (split_ifs <;> rfl)
  · first | trivial | (split_ifs <;> rfl)
  · first | trivial | (split_ifs <;> rfl)

/-- Witness for C7 amended: fresh session, `now = 10^8`, draw `0.01`,
reported phi `0.9`; the hypotheses hold and the conclusion applies. -/
theorem C7_witness :
    ((cfgOpen.auth_required = false ∨ st0.session.auth_ok = true) ∧
     (10:ℚ)^8 ≤ 10^8) ∧
    ((handle_op cfgOpen gen0 elapsed0 (10^8) (1/100) st0
        { op := some "heartbeat", ts := some (10^8 * 1000 - 500),
          phiRate := some (9/10) }).state.session.latency_ms = 500 ∧
     (handle_op cfgOpen gen0 elapsed0 (10^8) (1/100) st0
        { op := some "heartbeat", ts := some (10^8 * 1000 - 500),
          phiRate := some (9/10) }).outs = [OutMsg.pong] ∧
     (handle_op cfgOpen gen0 elapsed0 (10^8) (1/100) st0
        { op := some "heartbeat", ts := some (10^8 * 1000 - 500),
          phiRate := some (9/10) }).state.session.phi_rate =
       (if 1/10 < |(9/10 : ℚ) - st0.session.last_phi_rate| ∧ (1/100 : ℚ) < 1/20
        then st0.session.last_phi_rate
        else max 0 (min 1 (9/10)))) :=
  ⟨⟨Or.inl rfl, le_refl _⟩,
   C7_heartbeat_amended cfgOpen gen0 elapsed0 (10^8) (1/100) (9/10) st0
     (Or.inl rfl) (le_refl _)⟩

/-! ## C4: the last-sent snapshot can be replaced without its content being enqueued

The claim (and spec sections 3 and 4.3) say `session.last_matrix` is replaced
only after a frame carrying that content is actually enqueued.  Inside the
micro-batching loop the code does `session.last_matrix = nxt_matrix`
(server.py:350) for a delta computed at the end of a loop iteration; when that
happens in the final iteration, the delta is never merged into
`batched_delta`, `changed` stays false, the payload sent is the empty delta
`{}` and the post-loop reset `session.last_matrix = matrix` (server.py:361) is
skipped because the payload is falsy — yet the frame is still enqueued
(server.py:363) carrying no cells at all.  The session ends up with a
last-sent snapshot whose content was never delivered. -/

def cellA : Cell := { g := 1, c := 2, a := 0 }

def cellB : Cell := { g := 3, c := 2, a := 0 }

/-- The old snapshot, already known to the client. -/
def matL : Matrix := [(0, cellA)]

/-- The new snapshot the frame source produces on its fifth call. -/
def matM : Matrix := [(0, cellB)]

/-- Frame source trace: the first four `generate_frame` calls return the old
content, the fifth (the final batching iteration) returns changed content. -/
def genC4 : ℕ → Matrix := fun i => if i ≤ 3 then matL else matM

/-- A session that has already sent `matL`, inside its heartbeat window, with
the cadence gate open (`now = 100`, `last_frame_ts = 0`). -/
def stC4 : ServerState :=
  { metrics := {},
    session := { session_id := "s", last_matrix := some matL,
                 last_heartbeat_ts := 100, last_frame_ts := 0 },
    ledger := MMRState.empty _ }

/-- C4 (failing run): at the failing input the call replaces the last-sent
snapshot with `matM`, but the only payload it enqueues is a frame carrying an
empty delta — no enqueued frame carries the content now recorded as "last
sent", refuting the claimed invariant. -/
theorem C4_last_matrix_replaced_without_matching_enqueue :
    stC4.session.last_matrix = some matL ∧
    (send_frame_if_due genC4 elapsed0 100 stC4).state.session.last_matrix = some matM ∧
    (send_frame_if_due genC4 elapsed0 100 stC4).outs
      = [OutMsg.frame { payload := [], isDelta := true }] ∧
    matM ≠ matL := by
  have hhb : ¬ (CLIENT_HEARTBEAT_TIMEOUT_SECS < (100:ℚ) - stC4.session.last_heartbeat_ts) := by
    norm_num [stC4, CLIENT_HEARTBEAT_TIMEOUT_SECS]
  have hint : frame_interval_seconds stC4.session.phi_rate stC4.session.latency_ms
      = 2/11 := by
    norm_num [stC4, frame_interval_seconds, FRAME_HZ_MIN, FRAME_HZ_MAX]
  have hgate : ¬ ((100:ℚ) - stC4.session.last_frame_ts < 2/11 * (8/10)) := by
    norm_num [stC4]
  refine ⟨rfl, ?_, ?_, by decide⟩ <;>
    · simp only [send_frame_if_due, if_neg hhb, hint, if_neg hgate]
      decide

end Holonet
